import Mathlib

set_option maxHeartbeats 1000000

namespace udp

/-!
Shallow embedding of `udp.go` from go-udp-testing.

Go strings and byte slices are modelled as `List Char`; a datagram is one
`List Char`; the traffic a collection cycle observes is the ordered list of
datagrams that arrive inside its successive deadline windows.  The
process-wide mutable state (`logBuf`, plus the observable effects on the
`TestingT` reporter and on the socket) is threaded explicitly through a
structure `S`.
-/

/-- A Go value handed to `fmt` as a variadic `interface` argument in
`udp.go`: every call site passes strings, ints or an error value. -/
inductive GoAtom where
  | str (s : List Char)
  | int (n : Int)
  | err (e : List Char)
deriving Repr, DecidableEq

/-- An operand as `fmt.Sprintf` sees it: either a single atom, or a whole
`interface` slice passed as one operand (which is what `errorF` does, since
it forwards `args` rather than `args...`). -/
inductive GoValue where
  | atom (a : GoAtom)
  | slice (xs : List GoAtom)
deriving Repr, DecidableEq

/-- Join a list of character strings with a separator (Go's element joining
inside `fmt` slice rendering, and `strings.Join`). -/
def joinSep (sep : List Char) : List (List Char) → List Char
  | [] => []
  | [x] => x
  | x :: xs => x ++ sep ++ joinSep sep xs

/-- Go-syntax escaping of one character inside a double-quoted string, as
`%#v` (via `strconv.Quote`) renders it.  Claims only exercise printable
characters. -/
def goEscapeChar (c : Char) : List Char :=
  if c = '"' then "\\\"".data
  else if c = '\\' then "\\\\".data
  else if c = '\n' then "\\n".data
  else if c = '\t' then "\\t".data
  else if c = '\r' then "\\r".data
  else [c]

/-- Go-syntax double-quoted form of a string, as `%#v` renders a `string`. -/
def goQuote (s : List Char) : List Char :=
  '"' :: ((s.map goEscapeChar).flatten ++ ['"'])

/-- Decimal rendering of a Go `int`. -/
def goIntRepr (n : Int) : List Char :=
  (toString n).data

/-- Rendering of an atom under the `%v` verb. -/
def fmtAtomV : GoAtom → List Char
  | .str s => s
  | .int n => goIntRepr n
  | .err e => e

/-- Rendering of an atom under the `%#v` verb. -/
def fmtAtomSharpV : GoAtom → List Char
  | .str s => goQuote s
  | .int n => goIntRepr n
  | .err e => "&errors.errorString\x7bs:".data ++ goQuote e ++ "\x7d".data

/-- Rendering of an atom under the `%s` verb (Go wraps non-strings in a
`%!s(type=value)` marker). -/
def fmtAtomS : GoAtom → List Char
  | .str s => s
  | .int n => "%!s(int=".data ++ goIntRepr n ++ ")".data
  | .err e => e

/-- Rendering of an atom under the `%d` verb. -/
def fmtAtomD : GoAtom → List Char
  | .str s => "%!d(string=".data ++ s ++ ")".data
  | .int n => goIntRepr n
  | .err e => "%!d(error=".data ++ e ++ ")".data

/-- Rendering of an operand under `%v`: a slice prints its elements
space-separated between square brackets. -/
def fmtValueV : GoValue → List Char
  | .atom a => fmtAtomV a
  | .slice xs => "[".data ++ joinSep " ".data (xs.map fmtAtomV) ++ "]".data

/-- Rendering of an operand under `%#v`: a slice of `interface` values
prints in Go syntax. -/
def fmtValueSharpV : GoValue → List Char
  | .atom a => fmtAtomSharpV a
  | .slice xs =>
      "[]interface \x7b\x7d\x7b".data ++
        joinSep ", ".data (xs.map fmtAtomSharpV) ++ "\x7d".data

/-- Rendering of an operand under `%s`. -/
def fmtValueS : GoValue → List Char
  | .atom a => fmtAtomS a
  | .slice xs => "[".data ++ joinSep " ".data (xs.map fmtAtomS) ++ "]".data

/-- Rendering of an operand under `%d`. -/
def fmtValueD : GoValue → List Char
  | .atom a => fmtAtomD a
  | .slice xs => "[".data ++ joinSep " ".data (xs.map fmtAtomD) ++ "]".data

/-- Go type tag used by the `%!(EXTRA ...)` marker. -/
def goTypeTag : GoValue → List Char
  | .atom (.str _) => "string".data
  | .atom (.int _) => "int".data
  | .atom (.err _) => "error".data
  | .slice _ => "[]interface \x7b\x7d".data

/-- Core of `fmt.Sprintf` restricted to the verbs `udp.go` uses
(`%v`, `%#v`, `%s`, `%d`, `%%`), with Go's `%!v(MISSING)` and
`%!(EXTRA ...)` behaviour for operand-count mismatches. -/
def goSprintfAux : List Char → List GoValue → List Char
  | [], [] => []
  | [], o :: os =>
      "%!(EXTRA ".data ++
        joinSep ", ".data
          ((o :: os).map (fun v => goTypeTag v ++ "=".data ++ fmtValueV v)) ++
        ")".data
  | '%' :: '#' :: 'v' :: cs, [] => "%!v(MISSING)".data ++ goSprintfAux cs []
  | '%' :: '#' :: 'v' :: cs, o :: os => fmtValueSharpV o ++ goSprintfAux cs os
  | '%' :: 'v' :: cs, [] => "%!v(MISSING)".data ++ goSprintfAux cs []
  | '%' :: 'v' :: cs, o :: os => fmtValueV o ++ goSprintfAux cs os
  | '%' :: 's' :: cs, [] => "%!s(MISSING)".data ++ goSprintfAux cs []
  | '%' :: 's' :: cs, o :: os => fmtValueS o ++ goSprintfAux cs os
  | '%' :: 'd' :: cs, [] => "%!d(MISSING)".data ++ goSprintfAux cs []
  | '%' :: 'd' :: cs, o :: os => fmtValueD o ++ goSprintfAux cs os
  | '%' :: '%' :: cs, os => '%' :: goSprintfAux cs os
  | '%' :: c :: cs, os => "%!".data ++ (c :: "(NOVERB)".data) ++ goSprintfAux cs os
  | ['%'], _ => "%!(NOVERB)".data
  | c :: cs, os => c :: goSprintfAux cs os

/-- Model of `fmt.Sprintf` for the formats appearing in `udp.go`. -/
def goSprintf (format : String) (ops : List GoValue) : List Char :=
  goSprintfAux format.data ops

/-- Go `strings.Contains s sub`: `sub` occurs as a contiguous substring of
`s`. -/
def goContains (s sub : List Char) : Bool :=
  decide (sub <:+: s)

/-- Observable socket / action events of a collection cycle. -/
inductive Event where
  | sockOpen
  | action
  | read (n : Nat)
  | sockClose
deriving Repr, DecidableEq

/-- The explicit process state: the package-level `logBuf`, plus the
observable effects on the `TestingT` reporter (`emitted`, one entry per
`t.Error` call), the number of times an action closure has been invoked,
and the socket event trace. -/
structure S where
  logBuf : List (List Char)
  emitted : List (List Char)
  invocations : Nat
  trace : List Event
deriving Repr, DecidableEq

/-- The fresh process state: `logBuf` starts empty, nothing reported yet. -/
def initS : S := ⟨[], [], 0, []⟩

/-- `resetLogBuf` from `udp.go`: clears the package-level failure log. -/
def resetLogBuf (st : S) : S :=
  { st with logBuf := [] }

/-- `errorF` from `udp.go`: appends `fmt.Sprintf(format, args)` to `logBuf`.
The source forwards the variadic `args` slice as a single operand (it writes
`args`, not `args...`), hence the `GoValue.slice` wrapper. -/
def errorF (format : String) (args : List GoAtom) (st : S) : S :=
  { st with logBuf := st.logBuf ++ [goSprintf format [GoValue.slice args]] }

/-- `emitLog` from `udp.go`: when the failure log is non-empty, reports it
as one `t.Error` call joined by newlines (`strings.Join(logBuf, "\n")`) and
resets it. -/
def emitLog (st : S) : S :=
  if st.logBuf.length > 0 then
    resetLogBuf
      { st with emitted := st.emitted ++ [joinSep ['\n'] st.logBuf] }
  else st

/-- `start` from `udp.go`, on the successful-bind path: resolves the address
and opens the listener socket.  (A resolve or bind failure calls `t.Fatal`,
terminating the test before any socket exists, so no completed collection
cycle arises from it.) -/
def start (st : S) : S :=
  { st with trace := st.trace ++ [Event.sockOpen] }

/-- `stop` from `udp.go`: closes the listener socket. -/
def stop (st : S) : S :=
  { st with trace := st.trace ++ [Event.sockClose] }

/-- Invocation of the caller-supplied action closure `body()`. -/
def runBody (st : S) : S :=
  { st with invocations := st.invocations + 1, trace := st.trace ++ [Event.action] }

/-- Capacity of the receive buffer in `getMessage`: `make([]byte, 1024*32)`. -/
def bufCap : Nat := 1024 * 32

/-- Placeholder text of the deadline error returned by `ReadFrom` when no
datagram arrives before the read deadline (the exact text is
environment-dependent and no claim depends on it). -/
def timeoutErrText : List Char :=
  "read udp: i/o timeout".data

/-- The read loop of `getMessage`: given the datagrams arriving within the
successive deadline windows and the bytes accumulated so far, returns the
final accumulated bytes, whether the loop stopped on an erroring read
(deadline expiry, `err != nil`) rather than on reading a zero-length
datagram, and the list of read events.  Each read lands at offset
`acc.length` of the 32 KiB buffer, so at most `bufCap - acc.length` bytes of
a datagram are stored. -/
def readLoop : List (List Char) → List Char → List Char × Bool × List Event
  | [], acc => (acc, true, [Event.read 0])
  | d :: ds, acc =>
      let n := min d.length (bufCap - acc.length)
      if n = 0 then (acc, false, [Event.read 0])
      else
        let r := readLoop ds (acc ++ d.take n)
        (r.1, r.2.1, Event.read n :: r.2.2)

/-- `getMessage` from `udp.go`: open the socket, run the action, drain reads
until a zero-byte read, record the collector failure when the final read
errored with nothing captured while data was expected, close the socket
(deferred, so it runs on every path), and return the captured bytes. -/
def getMessage (ds : List (List Char)) (expectData : Bool) (st : S) :
    List Char × S :=
  let st := start st
  let st := runBody st
  let r := readLoop ds []
  let st := { st with trace := st.trace ++ r.2.2 }
  let st :=
    if r.2.1 && r.1.isEmpty && expectData then
      errorF "Error reading udp data: %v" [GoAtom.err timeoutErrText] st
    else st
  let st := stop st
  (r.1, st)

/-- `get` from `udp.go`: capture and compute the equality and containment
flags against `matchS`. -/
def get (matchS : List Char) (ds : List (List Char)) (expectData : Bool)
    (st : S) : (List Char × Bool × Bool) × S :=
  let r := getMessage ds expectData st
  ((r.1, decide (r.1 = matchS), goContains r.1 matchS), r.2)

/-- `printLocation` from `udp.go`: logs the caller's source location.  The
location returned by `runtime.Caller(2)` is ambient, so it is passed in as a
parameter `loc = (file, line)`. -/
def printLocation (loc : List Char × Int) (st : S) : S :=
  errorF "At: %s:%d" [GoAtom.str loc.1, GoAtom.int loc.2] st

/-- `ShouldReceiveOnly` from `udp.go`. -/
def ShouldReceiveOnly (loc : List Char × Int) (expected : List Char)
    (ds : List (List Char)) (st : S) : S :=
  let r := get expected ds true st
  let st := r.2
  let st :=
    if r.1.2.1 then st
    else
      let st := printLocation loc st
      let st := errorF "Expected: %#v" [GoAtom.str expected] st
      errorF "But got: %#v" [GoAtom.str r.1.1] st
  emitLog st

/-- `ShouldNotReceiveOnly` from `udp.go`. -/
def ShouldNotReceiveOnly (loc : List Char × Int) (notExpected : List Char)
    (ds : List (List Char)) (st : S) : S :=
  let r := get notExpected ds false st
  let st := r.2
  let st :=
    if r.1.2.1 then
      let st := printLocation loc st
      errorF "Expected not to get: %#v" [GoAtom.str notExpected] st
    else st
  emitLog st

/-- `ShouldReceive` from `udp.go`. -/
def ShouldReceive (loc : List Char × Int) (expected : List Char)
    (ds : List (List Char)) (st : S) : S :=
  let r := get expected ds false st
  let st := r.2
  let st :=
    if r.1.2.2 then st
    else
      let st := printLocation loc st
      let st := errorF "Expected: %#v" [GoAtom.str expected] st
      errorF "But got: %#v" [GoAtom.str r.1.1] st
  emitLog st

/-- `ShouldNotReceive` from `udp.go`. -/
def ShouldNotReceive (loc : List Char × Int) (expected : List Char)
    (ds : List (List Char)) (st : S) : S :=
  let r := get expected ds false st
  let st := r.2
  let st :=
    if r.1.2.2 then
      let st := printLocation loc st
      let st := errorF "Expected not to find: %#v" [GoAtom.str expected] st
      errorF "But got: %#v" [GoAtom.str r.1.1] st
    else st
  emitLog st

/-- `ShouldReceiveNothing` from `udp.go`. -/
def ShouldReceiveNothing (loc : List Char × Int) (ds : List (List Char))
    (st : S) : S :=
  let r := get [] ds false st
  let st := r.2
  let st :=
    if r.1.1.length > 0 then
      let st := printLocation loc st
      errorF "Expected no data, but got: %#v" [GoAtom.str r.1.1] st
    else st
  emitLog st

/-- One iteration of the reporting loops shared by `ShouldReceiveAll`,
`ShouldNotReceiveAny` and `ShouldReceiveAllAndNotReceiveAny`: the element is
a hit when its containment in `got` equals `pol` (`pol = false`: a wanted
string is missing; `pol = true`: an unwanted string is present); on the
first hit the caller location is printed, then one line per hit is
logged. -/
def checkStep (loc : List Char × Int) (fmt : String) (pol : Bool)
    (got : List Char) (p : S × Bool) (str : List Char) : S × Bool :=
  if goContains got str = pol then
    let st := if p.2 then p.1 else printLocation loc p.1
    (errorF fmt [GoAtom.str str] st, true)
  else p

/-- `ShouldReceiveAll` from `udp.go`. -/
def ShouldReceiveAll (loc : List Char × Int) (expected : List (List Char))
    (ds : List (List Char)) (st : S) : S :=
  let r := getMessage ds true st
  let got := r.1
  let p := expected.foldl (checkStep loc "Expected to find: %#v" false got) (r.2, false)
  let st :=
    if p.2 then errorF "But got: %#v" [GoAtom.str got] p.1
    else p.1
  emitLog st

/-- `ShouldNotReceiveAny` from `udp.go`. -/
def ShouldNotReceiveAny (loc : List Char × Int) (unexpected : List (List Char))
    (ds : List (List Char)) (st : S) : S :=
  let r := getMessage ds false st
  let got := r.1
  let p := unexpected.foldl (checkStep loc "Expected not to find: %#v" true got) (r.2, false)
  let st :=
    if p.2 then errorF "But got: %#v" [GoAtom.str got] p.1
    else p.1
  emitLog st

/-- `ShouldReceiveAllAndNotReceiveAny` from `udp.go`: one shared capture,
then both loops over the same `got`, then a single (lower-case) `but got`
line when anything failed. -/
def ShouldReceiveAllAndNotReceiveAny (loc : List Char × Int)
    (expected unexpected : List (List Char)) (ds : List (List Char))
    (st : S) : S :=
  let r := getMessage ds true st
  let got := r.1
  let p := expected.foldl (checkStep loc "Expected to find: %#v" false got) (r.2, false)
  let p := unexpected.foldl (checkStep loc "Expected not to find: %#v" true got) p
  let st :=
    if p.2 then errorF "but got: %#v" [GoAtom.str got] p.1
    else p.1
  emitLog st

/-- `ReceiveString` from `udp.go`: returns the raw capture with no assertion
and, notably, without `emitLog`. -/
def ReceiveString (ds : List (List Char)) (st : S) : List Char × S :=
  getMessage ds true st

/-- The process-wide configuration of `udp.go`: the listen address pointer
`addr` (nil until `SetAddr` is called) and the exported `Timeout` duration
(modelled in nanoseconds). -/
structure Config where
  addr : Option (List Char)
  timeout : Nat
deriving Repr, DecidableEq

/-- `SetAddr` from `udp.go`: stores (a pointer to a copy of) the address. -/
def SetAddr (a : List Char) (c : Config) : Config :=
  { c with addr := some a }

/-- Assignment to the exported package variable `Timeout`. -/
def setTimeout (d : Nat) (c : Config) : Config :=
  { c with timeout := d }

/-- The concatenated capture a collection cycle produces from the arriving
datagrams. -/
def capture (ds : List (List Char)) : List Char :=
  (readLoop ds []).1

/-- Whether the read loop stopped on an erroring (deadline-expired) read. -/
def timedOut (ds : List (List Char)) : Bool :=
  (readLoop ds []).2.1

/-- The condition under which `getMessage` logs the collector failure (given
`expectData`): nothing captured and the final read errored. -/
def collectorError (ds : List (List Char)) : Bool :=
  timedOut ds && (capture ds).isEmpty

/-- An assertion call passes when, run from the fresh state, it reports
nothing through `t.Error`. -/
def passes (f : S → S) : Prop :=
  (f initS).emitted = []

/-- The elements of `l` whose containment in `got` equals `pol` (the ones
the reporting loops log a line for). -/
def hitList (got : List Char) (pol : Bool) (l : List (List Char)) :
    List (List Char) :=
  l.filter (fun s => goContains got s == pol)

/-- The failure line logged for one value `s` under format `fmt` (the value
arrives wrapped in the variadic slice, see `errorF`). -/
def msgLine (fmt : String) (s : List Char) : List Char :=
  goSprintf fmt [GoValue.slice [GoAtom.str s]]

/-- The caller-location line as `printLocation` logs it. -/
def locLine (loc : List Char × Int) : List Char :=
  goSprintf "At: %s:%d" [GoValue.slice [GoAtom.str loc.1, GoAtom.int loc.2]]

/-- The collector-failure line `getMessage` logs when nothing arrives in
time. -/
def readErrLine : List Char :=
  goSprintf "Error reading udp data: %v" [GoValue.slice [GoAtom.err timeoutErrText]]

/-- The socket events one collection cycle appends to the trace. -/
def cycleEvents (ds : List (List Char)) : List Event :=
  Event.sockOpen :: Event.action :: ((readLoop ds []).2.2 ++ [Event.sockClose])

/-- The failure lines `ShouldReceiveOnly` accumulates. -/
def onlyLines (loc : List Char × Int) (expected : List Char)
    (ds : List (List Char)) : List (List Char) :=
  (if collectorError ds then [readErrLine] else []) ++
    (if capture ds = expected then []
     else [locLine loc, msgLine "Expected: %#v" expected,
           msgLine "But got: %#v" (capture ds)])

/-- The failure lines `ShouldReceive` accumulates (no collector failure:
`expectData` is false). -/
def receiveLines (loc : List Char × Int) (expected : List Char)
    (ds : List (List Char)) : List (List Char) :=
  if goContains (capture ds) expected then []
  else [locLine loc, msgLine "Expected: %#v" expected,
        msgLine "But got: %#v" (capture ds)]

/-- The failure lines `ShouldReceiveAll` accumulates. -/
def allLines (loc : List Char × Int) (expected : List (List Char))
    (ds : List (List Char)) : List (List Char) :=
  (if collectorError ds then [readErrLine] else []) ++
    ((if (hitList (capture ds) false expected).isEmpty then []
      else [locLine loc]) ++
      (hitList (capture ds) false expected).map (msgLine "Expected to find: %#v")) ++
    (if (hitList (capture ds) false expected).isEmpty then []
     else [msgLine "But got: %#v" (capture ds)])

/-- The failure lines `ShouldNotReceiveAny` accumulates. -/
def notAnyLines (loc : List Char × Int) (unexpected : List (List Char))
    (ds : List (List Char)) : List (List Char) :=
  ((if (hitList (capture ds) true unexpected).isEmpty then []
    else [locLine loc]) ++
    (hitList (capture ds) true unexpected).map (msgLine "Expected not to find: %#v")) ++
    (if (hitList (capture ds) true unexpected).isEmpty then []
     else [msgLine "But got: %#v" (capture ds)])

/-- The failure lines `ShouldReceiveAllAndNotReceiveAny` accumulates. -/
def combinedLines (loc : List Char × Int)
    (expected unexpected : List (List Char)) (ds : List (List Char)) :
    List (List Char) :=
  (if collectorError ds then [readErrLine] else []) ++
    ((if (hitList (capture ds) false expected).isEmpty then []
      else [locLine loc]) ++
      (hitList (capture ds) false expected).map (msgLine "Expected to find: %#v")) ++
    ((if !(hitList (capture ds) false expected).isEmpty ||
         (hitList (capture ds) true unexpected).isEmpty then []
      else [locLine loc]) ++
      (hitList (capture ds) true unexpected).map (msgLine "Expected not to find: %#v")) ++
    (if !(hitList (capture ds) false expected).isEmpty ||
        !(hitList (capture ds) true unexpected).isEmpty then
       [msgLine "but got: %#v" (capture ds)]
     else [])

/-- Open/close discipline of an event trace, tracking the number of sockets
currently open: an open is only legal at depth 0 (so at most one socket is
ever open), a close only at depth 1, and a complete trace ends at depth
0. -/
def balancedFrom (d : Nat) : List Event → Bool
  | [] => d == 0
  | Event.sockOpen :: es => d == 0 && balancedFrom 1 es
  | Event.sockClose :: es => d == 1 && balancedFrom 0 es
  | Event.action :: es => balancedFrom d es
  | Event.read _ :: es => balancedFrom d es

/-- Total number of bytes reported read by the read events of a trace. -/
def readBytes (es : List Event) : Nat :=
  (es.map (fun e => match e with | Event.read n => n | _ => 0)).sum

/-- Total length of a list of datagrams. -/
def totalLen (ds : List (List Char)) : Nat :=
  (ds.map List.length).sum

theorem emitLog_logBuf (st : S) : (emitLog st).logBuf = [] := by
  by_cases h : st.logBuf = [] <;>
    simp [emitLog, resetLogBuf, h, List.length_pos]

theorem emitLog_emitted (st : S) :
    (emitLog st).emitted =
      if st.logBuf = [] then st.emitted
      else st.emitted ++ [joinSep ['\n'] st.logBuf] := by
  by_cases h : st.logBuf = [] <;>
    simp [emitLog, resetLogBuf, h, List.length_pos]

theorem emitLog_invocations (st : S) :
    (emitLog st).invocations = st.invocations := by
  by_cases h : st.logBuf = [] <;>
    simp [emitLog, resetLogBuf, h, List.length_pos]

theorem getMessage_eq (ds : List (List Char)) (e : Bool) (st : S) :
    getMessage ds e st =
      (capture ds,
        { logBuf := st.logBuf ++ (if collectorError ds && e then [readErrLine] else []),
          emitted := st.emitted,
          invocations := st.invocations + 1,
          trace := st.trace ++ cycleEvents ds }) := by
  obtain ⟨lb, em, inv, tr⟩ := st
  simp only [getMessage, start, runBody, stop, errorF, capture, collectorError,
    timedOut, readErrLine, cycleEvents]
  by_cases h1 : (readLoop ds []).2.1 = true <;>
    by_cases h2 : (readLoop ds []).1.isEmpty = true <;>
      cases e <;> simp [h1, h2, List.append_assoc]

theorem checkStep_foldl (loc : List Char × Int) (fmt : String) (pol : Bool)
    (got : List Char) (l : List (List Char)) (st : S) (failed : Bool) :
    l.foldl (checkStep loc fmt pol got) (st, failed) =
      ({ st with logBuf := st.logBuf ++
            ((if failed || (hitList got pol l).isEmpty then [] else [locLine loc]) ++
              (hitList got pol l).map (msgLine fmt)) },
        failed || !(hitList got pol l).isEmpty) := by
  induction l generalizing st failed with
  | nil =>
      obtain ⟨lb, em, inv, tr⟩ := st
      simp [hitList]
  | cons d tl ih =>
      by_cases h : goContains got d = pol
      · have hcons : hitList got pol (d :: tl) = d :: hitList got pol tl := by
          simp [hitList, h]
        cases failed with
        | false =>
            obtain ⟨lb, em, inv, tr⟩ := st
            simp [List.foldl_cons, checkStep, h, ih, hcons, printLocation, errorF,
              msgLine, locLine, List.append_assoc]
        | true =>
            obtain ⟨lb, em, inv, tr⟩ := st
            simp [List.foldl_cons, checkStep, h, ih, hcons, errorF, msgLine,
              List.append_assoc]
      · have hcons : hitList got pol (d :: tl) = hitList got pol tl := by
          simp [hitList, h]
        simp [List.foldl_cons, checkStep, h, ih, hcons]

theorem ShouldReceiveOnly_run (loc : List Char × Int) (expected : List Char)
    (ds : List (List Char)) (st : S) :
    ShouldReceiveOnly loc expected ds st =
      emitLog { st with logBuf := st.logBuf ++ onlyLines loc expected ds,
                        invocations := st.invocations + 1,
                        trace := st.trace ++ cycleEvents ds } := by
  obtain ⟨lb, em, inv, tr⟩ := st
  simp only [ShouldReceiveOnly, get, getMessage_eq, onlyLines, printLocation,
    errorF, msgLine, locLine]
  by_cases hc : collectorError ds = true <;>
    by_cases he : capture ds = expected <;>
      simp [hc, he, List.append_assoc]

theorem ShouldReceive_run (loc : List Char × Int) (expected : List Char)
    (ds : List (List Char)) (st : S) :
    ShouldReceive loc expected ds st =
      emitLog { st with logBuf := st.logBuf ++ receiveLines loc expected ds,
                        invocations := st.invocations + 1,
                        trace := st.trace ++ cycleEvents ds } := by
  obtain ⟨lb, em, inv, tr⟩ := st
  simp only [ShouldReceive, get, getMessage_eq, receiveLines, printLocation,
    errorF, msgLine, locLine]
  by_cases hco : goContains (capture ds) expected = true <;>
    simp [hco, List.append_assoc]

theorem ShouldReceiveAll_run (loc : List Char × Int)
    (expected : List (List Char)) (ds : List (List Char)) (st : S) :
    ShouldReceiveAll loc expected ds st =
      emitLog { st with logBuf := st.logBuf ++ allLines loc expected ds,
                        invocations := st.invocations + 1,
                        trace := st.trace ++ cycleEvents ds } := by
  obtain ⟨lb, em, inv, tr⟩ := st
  simp only [ShouldReceiveAll, getMessage_eq, checkStep_foldl, allLines,
    errorF, msgLine]
  by_cases hc : collectorError ds = true <;>
    by_cases hh : (hitList (capture ds) false expected).isEmpty = true <;>
      simp [hc, hh, List.append_assoc]

theorem ShouldNotReceiveAny_run (loc : List Char × Int)
    (unexpected : List (List Char)) (ds : List (List Char)) (st : S) :
    ShouldNotReceiveAny loc unexpected ds st =
      emitLog { st with logBuf := st.logBuf ++ notAnyLines loc unexpected ds,
                        invocations := st.invocations + 1,
                        trace := st.trace ++ cycleEvents ds } := by
  obtain ⟨lb, em, inv, tr⟩ := st
  simp only [ShouldNotReceiveAny, getMessage_eq, checkStep_foldl, notAnyLines,
    errorF, msgLine]
  by_cases hh : (hitList (capture ds) true unexpected).isEmpty = true <;>
    simp [hh, List.append_assoc]

theorem ShouldReceiveAllAndNotReceiveAny_run (loc : List Char × Int)
    (expected unexpected : List (List Char)) (ds : List (List Char)) (st : S) :
    ShouldReceiveAllAndNotReceiveAny loc expected unexpected ds st =
      emitLog { st with
        logBuf := st.logBuf ++ combinedLines loc expected unexpected ds,
        invocations := st.invocations + 1,
        trace := st.trace ++ cycleEvents ds } := by
  obtain ⟨lb, em, inv, tr⟩ := st
  simp only [ShouldReceiveAllAndNotReceiveAny, getMessage_eq, checkStep_foldl,
    combinedLines, errorF, msgLine]
  by_cases hc : collectorError ds = true <;>
    by_cases h1 : (hitList (capture ds) false expected).isEmpty = true <;>
      by_cases h2 : (hitList (capture ds) true unexpected).isEmpty = true <;>
        simp [hc, h1, h2, List.append_assoc]

theorem passes_ShouldReceiveOnly (loc : List Char × Int) (expected : List Char)
    (ds : List (List Char)) :
    passes (ShouldReceiveOnly loc expected ds) ↔ onlyLines loc expected ds = [] := by
  rw [passes, ShouldReceiveOnly_run, emitLog_emitted]
  by_cases hl : onlyLines loc expected ds = [] <;> simp [hl, initS]

theorem passes_ShouldReceive (loc : List Char × Int) (expected : List Char)
    (ds : List (List Char)) :
    passes (ShouldReceive loc expected ds) ↔ receiveLines loc expected ds = [] := by
  rw [passes, ShouldReceive_run, emitLog_emitted]
  by_cases hl : receiveLines loc expected ds = [] <;> simp [hl, initS]

theorem passes_ShouldReceiveAll (loc : List Char × Int)
    (expected : List (List Char)) (ds : List (List Char)) :
    passes (ShouldReceiveAll loc expected ds) ↔ allLines loc expected ds = [] := by
  rw [passes, ShouldReceiveAll_run, emitLog_emitted]
  by_cases hl : allLines loc expected ds = [] <;> simp [hl, initS]

theorem passes_ShouldNotReceiveAny (loc : List Char × Int)
    (unexpected : List (List Char)) (ds : List (List Char)) :
    passes (ShouldNotReceiveAny loc unexpected ds) ↔ notAnyLines loc unexpected ds = [] := by
  rw [passes, ShouldNotReceiveAny_run, emitLog_emitted]
  by_cases hl : notAnyLines loc unexpected ds = [] <;> simp [hl, initS]

theorem passes_ShouldReceiveAllAndNotReceiveAny (loc : List Char × Int)
    (expected unexpected : List (List Char)) (ds : List (List Char)) :
    passes (ShouldReceiveAllAndNotReceiveAny loc expected unexpected ds) ↔
      combinedLines loc expected unexpected ds = [] := by
  rw [passes, ShouldReceiveAllAndNotReceiveAny_run, emitLog_emitted]
  by_cases hl : combinedLines loc expected unexpected ds = [] <;> simp [hl, initS]

theorem onlyLines_eq_nil (loc : List Char × Int) (expected : List Char)
    (ds : List (List Char)) :
    onlyLines loc expected ds = [] ↔
      (capture ds = expected ∧ collectorError ds = false) := by
  cases hc : collectorError ds <;>
    by_cases he : capture ds = expected <;>
      simp [onlyLines, hc, he]

theorem receiveLines_eq_nil (loc : List Char × Int) (expected : List Char)
    (ds : List (List Char)) :
    receiveLines loc expected ds = [] ↔
      goContains (capture ds) expected = true := by
  cases hco : goContains (capture ds) expected <;> simp [receiveLines, hco]

theorem allLines_eq_nil (loc : List Char × Int) (expected : List (List Char))
    (ds : List (List Char)) :
    allLines loc expected ds = [] ↔
      (hitList (capture ds) false expected = [] ∧ collectorError ds = false) := by
  cases hc : collectorError ds <;>
    by_cases hh : hitList (capture ds) false expected = [] <;>
      simp [allLines, hc, hh, List.isEmpty_iff]

theorem notAnyLines_eq_nil (loc : List Char × Int)
    (unexpected : List (List Char)) (ds : List (List Char)) :
    notAnyLines loc unexpected ds = [] ↔
      hitList (capture ds) true unexpected = [] := by
  by_cases hh : hitList (capture ds) true unexpected = [] <;>
    simp [notAnyLines, hh, List.isEmpty_iff]

theorem combinedLines_eq_nil (loc : List Char × Int)
    (expected unexpected : List (List Char)) (ds : List (List Char)) :
    combinedLines loc expected unexpected ds = [] ↔
      (hitList (capture ds) false expected = [] ∧
        hitList (capture ds) true unexpected = [] ∧
        collectorError ds = false) := by
  cases hc : collectorError ds <;>
    by_cases h1 : hitList (capture ds) false expected = [] <;>
      by_cases h2 : hitList (capture ds) true unexpected = [] <;>
        simp [combinedLines, hc, h1, h2, List.isEmpty_iff]

theorem hitList_false_eq_nil (got : List Char) (l : List (List Char)) :
    hitList got false l = [] ↔ ∀ s ∈ l, goContains got s = true := by
  simp [hitList, List.filter_eq_nil_iff]

theorem hitList_true_eq_nil (got : List Char) (l : List (List Char)) :
    hitList got true l = [] ↔ ∀ s ∈ l, goContains got s = false := by
  simp [hitList, List.filter_eq_nil_iff]

/-- C1: the claim asserts `ShouldReceiveOnly(s)` passes iff the capture
equals `s`, and in particular passes when the action sends nothing and
`s = ""`.  Counterexample: with no datagrams and `expected = []`, the capture
equals the expectation and `get` reports `equals = true`, `contains = true`,
yet the call still reports a failure (the collector's
"Error reading udp data" entry is emitted), so the claimed equivalence is
false. -/
theorem C1_counterexample :
    capture [] = [] ∧
    (get [] [] true initS).1.2.1 = true ∧
    (get [] [] true initS).1.2.2 = true ∧
    ¬ passes (ShouldReceiveOnly ("udp_test.go".data, 56) [] []) := by
  refine ⟨rfl, rfl, rfl, ?_⟩
  unfold passes
  decide

/-- C1 (amended): `ShouldReceiveOnly(s)` passes iff the capture equals `s`
and the collector did not record its nothing-arrived failure (zero bytes
captured with the final read erroring while `expectDataFlag` is set); the
equality and containment flags computed by `get` are exactly capture
equality and Go substring containment, so in the sends-nothing/empty-string
scenario `equals = true` and `contains = true` even though the call itself
still reports the collector failure. -/
theorem C1_theorem : ∀ (loc : List Char × Int) (expected : List Char)
    (ds : List (List Char)),
    (passes (ShouldReceiveOnly loc expected ds) ↔
      (capture ds = expected ∧ collectorError ds = false)) ∧
    (get expected ds true initS).1.2.1 = decide (capture ds = expected) ∧
    (get expected ds true initS).1.2.2 = goContains (capture ds) expected := by
  intro loc expected ds
  refine ⟨?_, ?_, ?_⟩
  · rw [passes_ShouldReceiveOnly, onlyLines_eq_nil]
  · simp [get, getMessage_eq]
  · simp [get, getMessage_eq]

/-- C2: the claim asserts the failure log is empty after every operation of
the table including `ReceiveRaw` (`ReceiveString`).  Counterexample: a
`ReceiveString` call during which nothing arrives records the collector
failure and, having no `emitLog`, leaves it in the process-wide log. -/
theorem C2_counterexample :
    (ReceiveString [] initS).2.logBuf ≠ [] := by
  decide

/-- C2 (amended): after every assertion operation that ends in `emitLog`
(all eight `Should*` functions) the process-wide failure log is empty, from
any starting state; `ReceiveString` however performs no drain and leaves the
collector failure in the log whenever zero bytes arrived by timeout, to be
emitted by a later unrelated call. -/
theorem C2_theorem : ∀ (loc : List Char × Int) (x : List Char)
    (l l' ds : List (List Char)) (st : S),
    (ShouldReceiveOnly loc x ds st).logBuf = [] ∧
    (ShouldNotReceiveOnly loc x ds st).logBuf = [] ∧
    (ShouldReceive loc x ds st).logBuf = [] ∧
    (ShouldNotReceive loc x ds st).logBuf = [] ∧
    (ShouldReceiveNothing loc ds st).logBuf = [] ∧
    (ShouldReceiveAll loc l ds st).logBuf = [] ∧
    (ShouldNotReceiveAny loc l' ds st).logBuf = [] ∧
    (ShouldReceiveAllAndNotReceiveAny loc l l' ds st).logBuf = [] ∧
    (ReceiveString ds st).2.logBuf =
      st.logBuf ++ (if collectorError ds then [readErrLine] else []) := by
  intro loc x l l' ds st
  refine ⟨?_, ?_, ?_, ?_, ?_, ?_, ?_, ?_, ?_⟩
  · simp [ShouldReceiveOnly, emitLog_logBuf]
  · simp [ShouldNotReceiveOnly, emitLog_logBuf]
  · simp [ShouldReceive, emitLog_logBuf]
  · simp [ShouldNotReceive, emitLog_logBuf]
  · simp [ShouldReceiveNothing, emitLog_logBuf]
  · simp [ShouldReceiveAll, emitLog_logBuf]
  · simp [ShouldNotReceiveAny, emitLog_logBuf]
  · simp [ShouldReceiveAllAndNotReceiveAny, emitLog_logBuf]
  · simp [ReceiveString, getMessage_eq]

/-- C3: the claim asserts the collector failure is recorded iff zero bytes
were captured and `expectDataFlag` is set.  Counterexample: a cycle whose
only traffic is one zero-length datagram captures zero bytes with the flag
set, yet records nothing (the loop broke on a successful zero-byte read, so
`err == nil`). -/
theorem C3_counterexample :
    capture [[]] = [] ∧ (getMessage [[]] true initS).2.logBuf = [] :=
  ⟨rfl, rfl⟩

/-- C3 (amended): the collector failure is recorded iff zero bytes were
captured, the terminating read returned an error (deadline expired), and
`expectDataFlag` is set; a cycle ended by a zero-length datagram records
nothing even with the flag set, and with the flag false a zero-byte read
never records a failure. -/
theorem C3_theorem : ∀ (ds : List (List Char)) (e : Bool) (st : S),
    ((getMessage ds e st).2.logBuf ≠ st.logBuf ↔
      (capture ds = [] ∧ timedOut ds = true ∧ e = true)) ∧
    (getMessage ds e st).2.logBuf =
      st.logBuf ++ (if collectorError ds && e then [readErrLine] else []) := by
  intro ds e st
  constructor
  · cases hts : timedOut ds <;> cases hcap : (capture ds).isEmpty <;> cases e <;>
      simp_all [getMessage_eq, collectorError, List.isEmpty_iff]
  · simp [getMessage_eq]

/-- C4: `ShouldReceiveAllAndNotReceiveAny` passes exactly when
`ShouldReceiveAll` on the expected list and `ShouldNotReceiveAny` on the
unexpected list would both pass against the same captured traffic; the
action is invoked exactly once, and all failures are reported together in at
most one `t.Error` call. -/
theorem C4_theorem : ∀ (loc : List Char × Int)
    (expected unexpected ds : List (List Char)),
    (passes (ShouldReceiveAllAndNotReceiveAny loc expected unexpected ds) ↔
      (passes (ShouldReceiveAll loc expected ds) ∧
        passes (ShouldNotReceiveAny loc unexpected ds))) ∧
    (ShouldReceiveAllAndNotReceiveAny loc expected unexpected ds initS).invocations = 1 ∧
    (ShouldReceiveAllAndNotReceiveAny loc expected unexpected ds initS).emitted.length ≤ 1 := by
  intro loc e u ds
  refine ⟨?_, ?_, ?_⟩
  · rw [passes_ShouldReceiveAllAndNotReceiveAny, combinedLines_eq_nil,
      passes_ShouldReceiveAll, allLines_eq_nil,
      passes_ShouldNotReceiveAny, notAnyLines_eq_nil]
    tauto
  · rw [ShouldReceiveAllAndNotReceiveAny_run, emitLog_invocations]
    simp [initS]
  · rw [ShouldReceiveAllAndNotReceiveAny_run, emitLog_emitted]
    by_cases hl : combinedLines loc e u ds = [] <;> simp [hl, initS]

/-- C5: the claim asserts `ShouldReceiveAll` passes iff every listed string
is a substring of the capture.  Counterexample: with an empty expected list
(so every element is trivially contained) and no traffic, the call still
fails, because `expectData` is set and the collector records its
nothing-arrived failure. -/
theorem C5_counterexample :
    (∀ s ∈ ([] : List (List Char)), goContains (capture []) s = true) ∧
    ¬ passes (ShouldReceiveAll ("udp_test.go".data, 72) [] []) := by
  refine ⟨by simp, ?_⟩
  unfold passes
  decide

/-- C5 (amended): `ShouldReceiveAll` passes iff every element of the
expected list is a substring of the capture and the collector did not record
its nothing-arrived failure; at most one combined `t.Error` report is
emitted per call, and when elements are missing (absent the collector
failure) the report is exactly the location line, one "Expected to find"
line per missing element in list order, and a final single line with the
full captured payload. -/
theorem C5_theorem : ∀ (loc : List Char × Int)
    (expected ds : List (List Char)),
    (passes (ShouldReceiveAll loc expected ds) ↔
      ((∀ s ∈ expected, goContains (capture ds) s = true) ∧
        collectorError ds = false)) ∧
    (ShouldReceiveAll loc expected ds initS).emitted.length ≤ 1 ∧
    (collectorError ds = false →
      hitList (capture ds) false expected ≠ [] →
      (ShouldReceiveAll loc expected ds initS).emitted =
        [joinSep ['\n']
          (locLine loc ::
            ((hitList (capture ds) false expected).map (msgLine "Expected to find: %#v") ++
              [msgLine "But got: %#v" (capture ds)]))]) := by
  intro loc expected ds
  refine ⟨?_, ?_, ?_⟩
  · rw [passes_ShouldReceiveAll, allLines_eq_nil, hitList_false_eq_nil]
  · rw [ShouldReceiveAll_run, emitLog_emitted]
    by_cases hl : allLines loc expected ds = [] <;> simp [hl, initS]
  · intro hc hh
    have hlines : allLines loc expected ds =
        locLine loc ::
          ((hitList (capture ds) false expected).map (msgLine "Expected to find: %#v") ++
            [msgLine "But got: %#v" (capture ds)]) := by
      simp [allLines, hc, hh, List.isEmpty_iff]
    rw [ShouldReceiveAll_run, emitLog_emitted]
    simp [hlines, initS]

/-- C5 witness: a concrete failing `ShouldReceiveAll` call (capture "a",
expected list ["b"]) whose report is the location line, the one missing
line, and the payload line, joined into one message. -/
theorem C5_witness :
    collectorError ["a".data] = false ∧
    hitList (capture ["a".data]) false ["b".data] ≠ [] ∧
    (ShouldReceiveAll ("udp_test.go".data, 72) ["b".data] ["a".data] initS).emitted =
      [joinSep ['\n']
        (locLine ("udp_test.go".data, 72) ::
          ((hitList (capture ["a".data]) false ["b".data]).map (msgLine "Expected to find: %#v") ++
            [msgLine "But got: %#v" (capture ["a".data])]))] := by
  have h := C5_theorem ("udp_test.go".data, 72) ["b".data] ["a".data]
  exact ⟨by decide, by decide, h.2.2 (by decide) (by decide)⟩

/-- C6: `ShouldReceive` passes iff the expected string is a Go substring of
the captured payload; concretely, expecting "foo" passes on captures
"barfoo", "foobar" and "foo", and fails on "fo" and on the empty capture. -/
theorem C6_theorem :
    (∀ (loc : List Char × Int) (expected : List Char) (ds : List (List Char)),
      passes (ShouldReceive loc expected ds) ↔
        goContains (capture ds) expected = true) ∧
    passes (ShouldReceive ("udp_test.go".data, 64) "foo".data ["barfoo".data]) ∧
    passes (ShouldReceive ("udp_test.go".data, 64) "foo".data ["foobar".data]) ∧
    passes (ShouldReceive ("udp_test.go".data, 64) "foo".data ["foo".data]) ∧
    ¬ passes (ShouldReceive ("udp_test.go".data, 64) "foo".data ["fo".data]) ∧
    ¬ passes (ShouldReceive ("udp_test.go".data, 64) "foo".data []) := by
  constructor
  · intro loc expected ds
    rw [passes_ShouldReceive, receiveLines_eq_nil]
  · refine ⟨?_, ?_, ?_, ?_, ?_⟩ <;> (unfold passes; decide)

theorem balancedFrom_readEvents (ds : List (List Char)) :
    ∀ (acc : List Char) (d : Nat) (rest : List Event),
      balancedFrom d ((readLoop ds acc).2.2 ++ rest) = balancedFrom d rest := by
  induction ds with
  | nil =>
      intro acc d rest
      simp [readLoop, balancedFrom]
  | cons x tl ih =>
      intro acc d rest
      simp only [readLoop]
      by_cases hn : min x.length (bufCap - acc.length) = 0 <;>
        simp [hn, balancedFrom, ih]

theorem balancedFrom_append (xs ys : List Event) :
    ∀ d, balancedFrom d xs = true → balancedFrom 0 ys = true →
      balancedFrom d (xs ++ ys) = true := by
  induction xs with
  | nil =>
      intro d hx hy
      simp [balancedFrom] at hx
      subst hx
      simpa using hy
  | cons e tl ih =>
      intro d hx hy
      cases e with
      | sockOpen =>
          simp [balancedFrom] at hx ⊢
          exact ⟨hx.1, ih 1 hx.2 hy⟩
      | sockClose =>
          simp [balancedFrom] at hx ⊢
          exact ⟨hx.1, ih 0 hx.2 hy⟩
      | action =>
          simp [balancedFrom] at hx ⊢
          exact ih d hx hy
      | read n =>
          simp [balancedFrom] at hx ⊢
          exact ih d hx hy

/-- C7: every collection cycle appends to the trace exactly the segment
open, action, reads, close — with the close last on every path, including
the one recording a read failure — and that segment is balanced at nesting
depth at most one, so a cycle run from any state whose trace is balanced
(no socket currently open) leaves a balanced trace: at most one listener
socket is ever open, and none stays open across assertion calls. -/
theorem C7_theorem : ∀ (ds : List (List Char)) (e : Bool) (st : S),
    balancedFrom 0 st.trace = true →
    ((getMessage ds e st).2.trace = st.trace ++ cycleEvents ds ∧
      balancedFrom 0 (cycleEvents ds) = true ∧
      balancedFrom 0 ((getMessage ds e st).2.trace) = true ∧
      ((getMessage ds e st).2.trace).getLast? = some Event.sockClose) := by
  intro ds e st hb
  have hstep : balancedFrom 0 (cycleEvents ds) =
      balancedFrom 1 ((readLoop ds []).2.2 ++ [Event.sockClose]) := by
    simp [cycleEvents, balancedFrom]
  have hcyc : balancedFrom 0 (cycleEvents ds) = true := by
    rw [hstep, balancedFrom_readEvents]
    simp [balancedFrom]
  have htr : (getMessage ds e st).2.trace = st.trace ++ cycleEvents ds := by
    simp [getMessage_eq]
  refine ⟨htr, hcyc, ?_, ?_⟩
  · rw [htr]
    exact balancedFrom_append _ _ 0 hb hcyc
  · have hsplit : st.trace ++ cycleEvents ds =
        (st.trace ++ (Event.sockOpen :: Event.action :: (readLoop ds []).2.2)) ++
          [Event.sockClose] := by
      simp [cycleEvents]
    rw [htr, hsplit, List.getLast?_concat]

/-- C7 witness: a concrete cycle from the fresh state, whose trace is the
balanced open-action-read-read-close segment ending in the close event. -/
theorem C7_witness :
    balancedFrom 0 initS.trace = true ∧
    ((getMessage ["ab".data] true initS).2.trace =
        initS.trace ++ cycleEvents ["ab".data] ∧
      balancedFrom 0 (cycleEvents ["ab".data]) = true ∧
      balancedFrom 0 ((getMessage ["ab".data] true initS).2.trace) = true ∧
      ((getMessage ["ab".data] true initS).2.trace).getLast? =
        some Event.sockClose) :=
  ⟨by decide, C7_theorem ["ab".data] true initS (by decide)⟩

theorem readLoop_length_le (ds : List (List Char)) :
    ∀ acc : List Char, acc.length ≤ bufCap →
      (readLoop ds acc).1.length ≤ bufCap := by
  induction ds with
  | nil =>
      intro acc h
      simpa [readLoop] using h
  | cons d tl ih =>
      intro acc h
      simp only [readLoop]
      by_cases hn : min d.length (bufCap - acc.length) = 0
      · simpa [hn] using h
      · have hlen : (acc ++ d.take (min d.length (bufCap - acc.length))).length ≤ bufCap := by
          simp only [List.length_append, List.length_take]
          omega
        simpa [hn] using ih _ hlen

theorem readLoop_length_reads (ds : List (List Char)) :
    ∀ acc : List Char,
      (readLoop ds acc).1.length = acc.length + readBytes (readLoop ds acc).2.2 := by
  induction ds with
  | nil =>
      intro acc
      simp [readLoop, readBytes]
  | cons d tl ih =>
      intro acc
      simp only [readLoop]
      by_cases hn : min d.length (bufCap - acc.length) = 0
      · simp [hn, readBytes]
      · have hrec := ih (acc ++ d.take (min d.length (bufCap - acc.length)))
        simp only [List.length_append, List.length_take] at hrec
        simp [hn, readBytes] at hrec ⊢
        omega

theorem readLoop_flatten (ds : List (List Char)) :
    ∀ acc : List Char, (∀ d ∈ ds, d ≠ []) →
      acc.length + totalLen ds ≤ bufCap →
      (readLoop ds acc).1 = acc ++ ds.flatten := by
  induction ds with
  | nil =>
      intro acc _ _
      simp [readLoop]
  | cons d tl ih =>
      intro acc hne hlen
      have hd : d ≠ [] := hne d (by simp)
      have hdpos : 0 < d.length := List.length_pos.mpr hd
      have htot : totalLen (d :: tl) = d.length + totalLen tl := by
        simp [totalLen]
      have hfit : d.length ≤ bufCap - acc.length := by omega
      have hn : min d.length (bufCap - acc.length) = d.length :=
        Nat.min_eq_left hfit
      have hnz : ¬ min d.length (bufCap - acc.length) = 0 := by omega
      simp only [readLoop, hn, hnz, if_false, List.take_length]
      rw [ih (acc ++ d) (fun x hx => hne x (by simp [hx]))
        (by simp only [List.length_append]; omega)]
      simp [hd]

/-- C8: reads land in a fixed buffer of capacity 32768 bytes
(`make([]byte, 1024*32)`) at the current write offset; each successful read
of `n > 0` bytes advances the offset by exactly `n` (the capture length is
the sum of the per-read byte counts), the offset never exceeds the
capacity, and when every datagram is non-empty and the total fits, the
returned payload is the concatenation of the datagrams in arrival order. -/
theorem C8_theorem : ∀ ds : List (List Char),
    bufCap = 32768 ∧
    (capture ds).length ≤ 32768 ∧
    (capture ds).length = readBytes (readLoop ds []).2.2 ∧
    ((∀ d ∈ ds, d ≠ []) → totalLen ds ≤ 32768 → capture ds = ds.flatten) := by
  intro ds
  refine ⟨rfl, ?_, ?_, ?_⟩
  · have h := readLoop_length_le ds [] (by simp [bufCap])
    simpa [capture, bufCap] using h
  · simpa [capture] using readLoop_length_reads ds []
  · intro h1 h2
    have h := readLoop_flatten ds [] h1 (by simpa [bufCap] using h2)
    simpa [capture] using h

/-- C8 witness: a concrete two-datagram cycle whose capture is their
in-order concatenation. -/
theorem C8_witness :
    (∀ d ∈ (["ab".data, "c".data] : List (List Char)), d ≠ []) ∧
    totalLen ["ab".data, "c".data] ≤ 32768 ∧
    capture ["ab".data, "c".data] =
      (["ab".data, "c".data] : List (List Char)).flatten := by
  have h := C8_theorem ["ab".data, "c".data]
  exact ⟨by decide, by decide, h.2.2.2 (by decide) (by decide)⟩

/-- C9: `errorF` forwards the variadic argument list to `Sprintf` as a
single slice operand, so every failure line renders its values wrapped in a
Go `interface` slice: on a failing `ShouldReceiveOnly` the location line
shows the file and line inside square brackets with an `%!s(int=...)`
marker and a `%!d(MISSING)` tail, and the expected/actual lines read
`Expected: []interface \x7b\x7d\x7b"..."\x7d` instead of the bare quoted
value the format string was written for. -/
theorem C9_theorem : ∀ (loc : List Char × Int) (expected : List Char)
    (ds : List (List Char)),
    capture ds ≠ expected → collectorError ds = false →
    (ShouldReceiveOnly loc expected ds initS).emitted =
      [joinSep ['\n']
        ["At: [".data ++ loc.1 ++ " %!s(int=".data ++ goIntRepr loc.2 ++
           ")]:%!d(MISSING)".data,
         "Expected: []interface \x7b\x7d\x7b".data ++ goQuote expected ++ "\x7d".data,
         "But got: []interface \x7b\x7d\x7b".data ++ goQuote (capture ds) ++ "\x7d".data]] := by
  intro loc expected ds hne hc
  have h1 : locLine loc =
      "At: [".data ++ loc.1 ++ " %!s(int=".data ++ goIntRepr loc.2 ++
        ")]:%!d(MISSING)".data := by
    simp [locLine, goSprintf, goSprintfAux, fmtValueS, fmtAtomS, joinSep]
  have h2 : ∀ s, msgLine "Expected: %#v" s =
      "Expected: []interface \x7b\x7d\x7b".data ++ goQuote s ++ "\x7d".data := by
    intro s
    simp [msgLine, goSprintf, goSprintfAux, fmtValueSharpV, fmtAtomSharpV, joinSep]
  have h3 : ∀ s, msgLine "But got: %#v" s =
      "But got: []interface \x7b\x7d\x7b".data ++ goQuote s ++ "\x7d".data := by
    intro s
    simp [msgLine, goSprintf, goSprintfAux, fmtValueSharpV, fmtAtomSharpV, joinSep]
  have hlines : onlyLines loc expected ds =
      [locLine loc, msgLine "Expected: %#v" expected,
        msgLine "But got: %#v" (capture ds)] := by
    simp [onlyLines, hc, hne]
  rw [ShouldReceiveOnly_run, emitLog_emitted]
  simp [initS, hlines, h1, h2, h3]

/-- C9 witness: the concrete failing `ShouldReceiveOnly` call expecting
"foo" while "bar" arrives, with the fully rendered slice-wrapped report. -/
theorem C9_witness :
    capture ["bar".data] ≠ "foo".data ∧
    collectorError ["bar".data] = false ∧
    (ShouldReceiveOnly ("udp_test.go".data, 56) "foo".data ["bar".data] initS).emitted =
      [joinSep ['\n']
        ["At: [".data ++ "udp_test.go".data ++ " %!s(int=".data ++ goIntRepr 56 ++
           ")]:%!d(MISSING)".data,
         "Expected: []interface \x7b\x7d\x7b".data ++ goQuote "foo".data ++ "\x7d".data,
         "But got: []interface \x7b\x7d\x7b".data ++ goQuote (capture ["bar".data]) ++
           "\x7d".data]] :=
  ⟨by decide, by decide,
    C9_theorem ("udp_test.go".data, 56) "foo".data ["bar".data] (by decide) (by decide)⟩

/-- C10: setting the same listen address twice in a row, or assigning the
same timeout twice in a row, leaves the process-wide configuration equal to
setting it once, so every subsequent collection cycle (a function of the
configuration) captures the same payload. -/
theorem C10_theorem : ∀ (a : List Char) (d : Nat) (c : Config)
    (deliver : Config → List (List Char)),
    SetAddr a (SetAddr a c) = SetAddr a c ∧
    setTimeout d (setTimeout d c) = setTimeout d c ∧
    capture (deliver (SetAddr a (SetAddr a c))) = capture (deliver (SetAddr a c)) ∧
    capture (deliver (setTimeout d (setTimeout d c))) =
      capture (deliver (setTimeout d c)) := by
  intro a d c deliver
  exact ⟨rfl, rfl, rfl, rfl⟩

end udp
